import Mathlib

/-!
# Verification of `clitoolkit` window-activity monitor (`src/clitoolkit/media.py`)

Shallow embedding of the window monitor: the snapshot function `list_windows`,
the transition detector `window_monitor`, and the catalog scanner
`scan_video_files`.  Timestamps are modelled as `Nat`.  External effects
(the `wmctrl` shell pipeline, `lsof`, the filesystem walk, `datetime.now()`)
are modelled as explicit inputs; the SQLite session is modelled as explicit
state (a list of rows), with the append-only activity log as a list of
`WindowLog` rows.
-/

namespace Clitoolkit

/-- `APPS` from media.py line 27: the tracked application identifiers. -/
def APPS : List String :=
  ["vlc.Vlc", "feh.feh", "google-chrome", "Chromium-browser.Chromium-browser"]

/-- `MINIMUM_VIDEO_SIZE` from media.py line 25. -/
def MINIMUM_VIDEO_SIZE : Nat := 10 * 1000 * 1000

/-- Row of the `video` table (media.py lines 60-69): `video_id` primary key,
`path` unique, `size`. -/
structure Video where
  video_id : Nat
  path : String
  size : Nat
deriving Repr, DecidableEq

/-- Row of the `window_log` table (media.py lines 72-90): start/end
timestamps, application name, title, and a nullable foreign key to `video`. -/
structure WindowLog where
  start_dt : Nat
  end_dt : Nat
  app_name : String
  title : String
  video_id : Option Nat
deriving Repr, DecidableEq

/-! ## The snapshot function `list_windows` (media.py lines 112-143)

A parsed line of `wmctrl -l -x` output after the grep filter: `words[2]`
is the application identifier, `' '.join(words[4:])` the window title.
The shell pipeline itself is an external process; its parsed output is the
input of the model. -/

structure WmLine where
  app : String
  title : String
deriving Repr, DecidableEq

/-- Python `app.startswith('vlc')` (media.py line 136), phrased over the
character list so that it evaluates by kernel reduction. -/
def startswithVlc (s : String) : Bool := s.data.take 3 = "vlc".data

/-- Insertion-ordered string-keyed map, as a Python `dict`. -/
abbrev TitleMap := List (String × List String)

/-- `m[k]` lookup for the insertion-ordered map. -/
def mapLookup (m : TitleMap) (k : String) : Option (List String) :=
  (m.find? (fun p => p.1 = k)).map Prod.snd

/-- In-place update of the value stored at key `k` (Python `m[k].append` /
`m[k].extend`). -/
def updateKey (m : TitleMap) (k : String) (f : List String → List String) :
    TitleMap :=
  m.map (fun p => if p.1 = k then (p.1, f p.2) else p)

/-- One iteration of the `for line in lines` loop of `list_windows`
(media.py lines 129-142): register the app key if new, then either
substitute the VLC open-file list, or append the (possibly blanked) title. -/
def listWindowsStep (vlc_open_files : List String) (windows : TitleMap)
    (line : WmLine) : TitleMap :=
  let app := line.app
  let windows :=
    if (mapLookup windows app).isSome then windows else windows ++ [(app, [])]
  let title := line.title
  if startswithVlc app then
    if vlc_open_files ≠ [] then
      updateKey windows app (fun v => v ++ vlc_open_files)
    else
      updateKey windows app (fun v => v ++ [""])
  else
    updateKey windows app (fun v => v ++ [title])

/-- `list_windows` (media.py lines 112-143).  `lines` is the parsed output of
the `wmctrl | grep` pipeline, `vlc_open_files` the result of
`list_vlc_open_files(False)` (an external `lsof` call, assumed stable during
one snapshot).  Every application key is padded to at least one (possibly
empty) title: `{key: value if value else [''] ...}`. -/
def list_windows (lines : List WmLine) (vlc_open_files : List String) :
    TitleMap :=
  let windows := lines.foldl (listWindowsStep vlc_open_files)
    (APPS.map (fun a => (a, [])))
  windows.map (fun p => (p.1, if p.2 = [] then [""] else p.2))

/-! ## The transition detector `window_monitor` (media.py lines 163-215)

Per-(app, slot-index) history `last`: Python's
`last[app] = defaultdict(tuple)` with entries `(timestamp, title)`.
An absent key and the empty-tuple default are both falsy and behave
identically in the code, so both are modelled as `none`. -/

abbrev Hist := List ((String × Nat) × (Nat × String))

/-- `last[app][index]`, `none` when unset (or set to the falsy `()`). -/
def histLookup (h : Hist) (k : String × Nat) : Option (Nat × String) :=
  (h.find? (fun p => p.1 = k)).map Prod.snd

/-- `last[app][index] = v`. -/
def histInsert (h : Hist) (k : String × Nat) (v : Nat × String) : Hist :=
  if (h.find? (fun p => p.1 = k)).isSome then
    h.map (fun p => if p.1 = k then (k, v) else p)
  else
    h ++ [(k, v)]

/-- A line of operator-facing output: either the
`"{time} Open window in {app}: {title}"` print (media.py line 195) or the
`print(window_log)` report of a closed segment (media.py line 210). -/
inductive Report where
  | openWindow (time : Nat) (app : String) (title : String)
  | logRecord (log : WindowLog)
deriving Repr, DecidableEq

/-- Monitor state: the history map, the operator output so far, and the rows
written to the `window_log` store so far. -/
abbrev MonSt := Hist × List Report × List WindowLog

/-- The body of the `for index, new_title in enumerate(new_titles)` loop
(media.py lines 184-213), for one slot:
debounce; compute `start_time`/`end_time`; overwrite history; print the
open-window line for a non-empty new title; skip emission when the prior
title is absent or empty; otherwise correlate with the video catalog,
report the record, and (if `save_logs`) persist it. -/
def processSlot (catalog : List Video) (monitor_start_time now : Nat)
    (save_logs : Bool) (app : String) (index : Nat) (new_title : String)
    (st : MonSt) : MonSt :=
  let (last, reports, saved) := st
  let last_info := histLookup last (app, index)
  if last_info.map Prod.snd = some new_title then
    (last, reports, saved)
  else
    let start_time := match last_info with
      | some (ts, _) => ts
      | none => monitor_start_time
    let end_time := now
    let last1 := histInsert last (app, index) (end_time, new_title)
    let reports1 := if new_title = "" then reports
      else reports ++ [Report.openWindow end_time app new_title]
    let old_title := match last_info with
      | some (_, t) => t
      | none => ""
    if old_title = "" then
      (last1, reports1, saved)
    else
      let video_id := (catalog.find? (fun v => v.path = old_title)).map
        Video.video_id
      let wl : WindowLog :=
        ⟨start_time, end_time, app, old_title, video_id⟩
      (last1, reports1 ++ [Report.logRecord wl],
        if save_logs then saved ++ [wl] else saved)

/-- `for index, new_title in enumerate(new_titles)` (media.py line 184),
starting from slot index `idx`. -/
def processTitles (catalog : List Video) (monitor_start_time now : Nat)
    (save_logs : Bool) (app : String) :
    List String → Nat → MonSt → MonSt
  | [], _, st => st
  | t :: rest, idx, st =>
      processTitles catalog monitor_start_time now save_logs app rest
        (idx + 1)
        (processSlot catalog monitor_start_time now save_logs app idx t st)

/-- `for app, new_titles in list_windows().items()` (media.py line 177),
given an already-taken snapshot. -/
def processPoll (catalog : List Video) (monitor_start_time now : Nat)
    (save_logs : Bool) : TitleMap → MonSt → MonSt
  | [], st => st
  | (app, titles) :: rest, st =>
      processPoll catalog monitor_start_time now save_logs rest
        (processTitles catalog monitor_start_time now save_logs app titles 0
          st)

/-- The `while True` loop of `window_monitor` (media.py lines 174-213) run
over a finite list of polls; each poll supplies its `datetime.now()`
timestamp and its `list_windows()` snapshot.  The run ends with
`KeyboardInterrupt` after the last poll (media.py lines 214-215). -/
def window_monitor (catalog : List Video) (monitor_start_time : Nat)
    (save_logs : Bool) : List (Nat × TitleMap) → MonSt → MonSt
  | [], st => st
  | (now, snap) :: rest, st =>
      window_monitor catalog monitor_start_time save_logs rest
        (processPoll catalog monitor_start_time now save_logs snap st)

/-! ## Fallible-store variant of the monitor

`session.commit()` (media.py line 213) can raise; the `try` around the loop
(media.py lines 173-215) catches only `KeyboardInterrupt`, so any store
exception propagates out of `window_monitor`.  The variant below threads a
write-attempt counter and an oracle `writeOk` saying whether the n-th store
write succeeds; a failed write raises (`Except.error`), exactly as an
uncaught exception unwinds the Python loop. -/

/-- Monitor state with a count of store writes attempted so far. -/
abbrev MonStE := Hist × List Report × List WindowLog × Nat

/-- Slot body with a fallible store write: same as `processSlot`, but
`session.add` + `session.commit` (media.py lines 212-213) may fail, in which
case the exception propagates (the surrounding `try` catches only
`KeyboardInterrupt`).  The `print(window_log)` report (line 210) happens
before the write, so it is emitted even when the commit then fails. -/
def processSlotE (catalog : List Video) (monitor_start_time now : Nat)
    (save_logs : Bool) (writeOk : Nat → Bool) (app : String) (index : Nat)
    (new_title : String) (st : MonStE) : Except String MonStE :=
  let (last, reports, saved, writes) := st
  let last_info := histLookup last (app, index)
  if last_info.map Prod.snd = some new_title then
    .ok (last, reports, saved, writes)
  else
    let start_time := match last_info with
      | some (ts, _) => ts
      | none => monitor_start_time
    let end_time := now
    let last1 := histInsert last (app, index) (end_time, new_title)
    let reports1 := if new_title = "" then reports
      else reports ++ [Report.openWindow end_time app new_title]
    let old_title := match last_info with
      | some (_, t) => t
      | none => ""
    if old_title = "" then
      .ok (last1, reports1, saved, writes)
    else
      let video_id := (catalog.find? (fun v => v.path = old_title)).map
        Video.video_id
      let wl : WindowLog :=
        ⟨start_time, end_time, app, old_title, video_id⟩
      let reports2 := reports1 ++ [Report.logRecord wl]
      if save_logs then
        if writeOk writes then
          .ok (last1, reports2, saved ++ [wl], writes + 1)
        else
          .error "IntegrityError"
      else
        .ok (last1, reports2, saved, writes)

/-- Slot loop with the fallible store; an error aborts the iteration. -/
def processTitlesE (catalog : List Video) (monitor_start_time now : Nat)
    (save_logs : Bool) (writeOk : Nat → Bool) (app : String) :
    List String → Nat → MonStE → Except String MonStE
  | [], _, st => .ok st
  | t :: rest, idx, st =>
      match processSlotE catalog monitor_start_time now save_logs writeOk app
          idx t st with
      | .error e => .error e
      | .ok st' =>
          processTitlesE catalog monitor_start_time now save_logs writeOk app
            rest (idx + 1) st'

/-- App loop with the fallible store. -/
def processPollE (catalog : List Video) (monitor_start_time now : Nat)
    (save_logs : Bool) (writeOk : Nat → Bool) :
    TitleMap → MonStE → Except String MonStE
  | [], st => .ok st
  | (app, titles) :: rest, st =>
      match processTitlesE catalog monitor_start_time now save_logs writeOk
          app titles 0 st with
      | .error e => .error e
      | .ok st' =>
          processPollE catalog monitor_start_time now save_logs writeOk rest
            st'

/-- The monitor loop with the fallible store: an uncaught store exception
unwinds past the remaining polls (only `KeyboardInterrupt` is caught). -/
def window_monitorE (catalog : List Video) (monitor_start_time : Nat)
    (save_logs : Bool) (writeOk : Nat → Bool) :
    List (Nat × TitleMap) → MonStE → Except String MonStE
  | [], st => .ok st
  | (now, snap) :: rest, st =>
      match processPollE catalog monitor_start_time now save_logs writeOk snap
          st with
      | .error e => .error e
      | .ok st' =>
          window_monitorE catalog monitor_start_time save_logs writeOk rest
            st'

/-! ## The catalog scanner `scan_video_files` (media.py lines 93-109)

The filesystem walk with extension filtering (lines 101-103) and `os.stat`
are external; `files` is the resulting list of `(partial_path, size)` pairs.
The scanner inserts each file larger than `MINIMUM_VIDEO_SIZE` and commits
after every insert; `video.path` carries a UNIQUE constraint (line 65), so
inserting an already-cataloged path raises an integrity error from the
store, which `scan_video_files` does not catch. -/

/-- `session.add(Video(...)); session.commit()` against the UNIQUE
constraint on `video.path`. -/
def videoInsert (catalog : List Video) (nextId : Nat) (path : String)
    (size : Nat) : Except String (List Video × Nat) :=
  if catalog.any (fun v => v.path = path) then
    .error "UNIQUE constraint failed: video.path"
  else
    .ok (catalog ++ [⟨nextId, path, size⟩], nextId + 1)

/-- `scan_video_files` (media.py lines 93-109) over the walked file list:
files at most `MINIMUM_VIDEO_SIZE` bytes are skipped (`size >
MINIMUM_VIDEO_SIZE` is strict); every other file is inserted
unconditionally, committing after each insert. -/
def scan_video_files (catalog : List Video) (nextId : Nat) :
    List (String × Nat) → Except String (List Video × Nat)
  | [] => .ok (catalog, nextId)
  | (path, size) :: rest =>
      if size > MINIMUM_VIDEO_SIZE then
        match videoInsert catalog nextId path size with
        | .error e => .error e
        | .ok (catalog', nextId') => scan_video_files catalog' nextId' rest
      else
        scan_video_files catalog nextId rest


theorem processSlot_debounce (catalog : List Video) (mst now : Nat) (b : Bool)
    (app : String) (i ts : Nat) (T : String) (st : MonSt)
    (h : histLookup st.1 (app, i) = some (ts, T)) :
    processSlot catalog mst now b app i T st = st := by
  obtain ⟨last, reports, saved⟩ := st
  simp only at h
  simp [processSlot, h]

theorem processSlot_first (catalog : List Video) (mst now : Nat) (b : Bool)
    (app : String) (i : Nat) (t : String) (st : MonSt)
    (h : histLookup st.1 (app, i) = none) :
    processSlot catalog mst now b app i t st =
      (histInsert st.1 (app, i) (now, t),
       (if t = "" then st.2.1 else st.2.1 ++ [Report.openWindow now app t]),
       st.2.2) := by
  obtain ⟨last, reports, saved⟩ := st
  simp only at h
  simp [processSlot, h]

theorem processSlot_emptyOld (catalog : List Video) (mst now : Nat) (b : Bool)
    (app : String) (i ts : Nat) (t : String) (st : MonSt)
    (h : histLookup st.1 (app, i) = some (ts, "")) (ht : t ≠ "") :
    processSlot catalog mst now b app i t st =
      (histInsert st.1 (app, i) (now, t),
       st.2.1 ++ [Report.openWindow now app t], st.2.2) := by
  obtain ⟨last, reports, saved⟩ := st
  simp only at h
  simp [processSlot, h, ht, Ne.symm ht]

theorem processSlot_emit (catalog : List Video) (mst now : Nat) (b : Bool)
    (app : String) (i t1 : Nat) (A B : String) (st : MonSt)
    (h : histLookup st.1 (app, i) = some (t1, A)) (hA : A ≠ "") (hAB : A ≠ B) :
    processSlot catalog mst now b app i B st =
      (histInsert st.1 (app, i) (now, B),
       (if B = "" then st.2.1 else st.2.1 ++ [Report.openWindow now app B]) ++
         [Report.logRecord ⟨t1, now, app, A,
            (catalog.find? (fun v => v.path = A)).map Video.video_id⟩],
       if b then st.2.2 ++ [⟨t1, now, app, A,
            (catalog.find? (fun v => v.path = A)).map Video.video_id⟩]
       else st.2.2) := by
  obtain ⟨last, reports, saved⟩ := st
  simp only at h
  simp [processSlot, h, hA, hAB]


theorem processSlot_dry (catalog : List Video) (mst now : Nat)
    (app : String) (i : Nat) (t : String) (st st' : MonSt)
    (h1 : st.1 = st'.1) (h2 : st.2.1 = st'.2.1) :
    (processSlot catalog mst now false app i t st).1 =
      (processSlot catalog mst now true app i t st').1 ∧
    (processSlot catalog mst now false app i t st).2.1 =
      (processSlot catalog mst now true app i t st').2.1 ∧
    (processSlot catalog mst now false app i t st).2.2 = st.2.2 := by
  obtain ⟨h, r, s⟩ := st
  obtain ⟨h', r', s'⟩ := st'
  simp only at h1 h2
  subst h1; subst h2
  cases hinfo : histLookup h (app, i) with
  | none => simp [processSlot, hinfo]
  | some p =>
      obtain ⟨ts, T⟩ := p
      by_cases hT : T = t
      · subst hT; simp [processSlot, hinfo]
      · by_cases hT0 : T = ""
        · subst hT0; simp [processSlot, hinfo, hT]
        · simp [processSlot, hinfo, hT, hT0]

theorem processTitles_dry (catalog : List Video) (mst now : Nat)
    (app : String) (ts : List String) (idx : Nat) (st st' : MonSt)
    (h1 : st.1 = st'.1) (h2 : st.2.1 = st'.2.1) :
    (processTitles catalog mst now false app ts idx st).1 =
      (processTitles catalog mst now true app ts idx st').1 ∧
    (processTitles catalog mst now false app ts idx st).2.1 =
      (processTitles catalog mst now true app ts idx st').2.1 ∧
    (processTitles catalog mst now false app ts idx st).2.2 = st.2.2 := by
  induction ts generalizing idx st st' with
  | nil => exact ⟨h1, h2, rfl⟩
  | cons t rest ih =>
      obtain ⟨e1, e2, e3⟩ := processSlot_dry catalog mst now app idx t st st' h1 h2
      have := ih (idx + 1) _ _ e1 e2
      simp only [processTitles]
      exact ⟨this.1, this.2.1, this.2.2.trans e3⟩

theorem processPoll_dry (catalog : List Video) (mst now : Nat)
    (snap : TitleMap) (st st' : MonSt)
    (h1 : st.1 = st'.1) (h2 : st.2.1 = st'.2.1) :
    (processPoll catalog mst now false snap st).1 =
      (processPoll catalog mst now true snap st').1 ∧
    (processPoll catalog mst now false snap st).2.1 =
      (processPoll catalog mst now true snap st').2.1 ∧
    (processPoll catalog mst now false snap st).2.2 = st.2.2 := by
  induction snap generalizing st st' with
  | nil => exact ⟨h1, h2, rfl⟩
  | cons p rest ih =>
      obtain ⟨app, titles⟩ := p
      obtain ⟨e1, e2, e3⟩ :=
        processTitles_dry catalog mst now app titles 0 st st' h1 h2
      have := ih _ _ e1 e2
      simp only [processPoll]
      exact ⟨this.1, this.2.1, this.2.2.trans e3⟩

theorem window_monitor_dry (catalog : List Video) (mst : Nat)
    (polls : List (Nat × TitleMap)) (st st' : MonSt)
    (h1 : st.1 = st'.1) (h2 : st.2.1 = st'.2.1) :
    (window_monitor catalog mst false polls st).1 =
      (window_monitor catalog mst true polls st').1 ∧
    (window_monitor catalog mst false polls st).2.1 =
      (window_monitor catalog mst true polls st').2.1 ∧
    (window_monitor catalog mst false polls st).2.2 = st.2.2 := by
  induction polls generalizing st st' with
  | nil => exact ⟨h1, h2, rfl⟩
  | cons p rest ih =>
      obtain ⟨now, snap⟩ := p
      obtain ⟨e1, e2, e3⟩ := processPoll_dry catalog mst now snap st st' h1 h2
      have := ih _ _ e1 e2
      simp only [window_monitor]
      exact ⟨this.1, this.2.1, this.2.2.trans e3⟩


theorem mapLookup_append_ne (m : TitleMap) (a k : String) (v : List String)
    (hk : a ≠ k) : mapLookup (m ++ [(a, v)]) k = mapLookup m k := by
  induction m with
  | nil => simp [mapLookup, List.find?, hk]
  | cons p rest ih =>
      by_cases hp : p.1 = k
      · simp [mapLookup, List.find?, hp]
      · simp only [mapLookup, List.cons_append] at *
        rw [List.find?_cons_of_neg, List.find?_cons_of_neg]
        · exact ih
        · simpa using hp
        · simpa using hp

theorem find?_cons_false {α : Type} (p : α → Bool) (a : α) (l : List α)
    (h : p a = false) : List.find? p (a :: l) = List.find? p l := by
  simp [List.find?, h]

theorem find?_cons_true {α : Type} (p : α → Bool) (a : α) (l : List α)
    (h : p a = true) : List.find? p (a :: l) = some a := by
  simp [List.find?, h]

theorem mapLookup_updateKey_ne (m : TitleMap) (a k : String)
    (f : List String → List String) (hk : a ≠ k) :
    mapLookup (updateKey m a f) k = mapLookup m k := by
  induction m with
  | nil => rfl
  | cons p rest ih =>
      by_cases hp : p.1 = k
      · have hpa : ¬ p.1 = a := fun e => hk (e.symm.trans hp)
        simp only [updateKey, List.map_cons, if_neg hpa, mapLookup]
        rw [find?_cons_true _ _ _ (by simp [hp]),
          find?_cons_true _ _ _ (by simp [hp])]
      · simp only [updateKey, List.map_cons, mapLookup]
        by_cases hpa : p.1 = a
        · rw [if_pos hpa, find?_cons_false _ _ _ (by simp [hp]),
            find?_cons_false _ _ _ (by simp [hp])]
          exact ih
        · rw [if_neg hpa, find?_cons_false _ _ _ (by simp [hp]),
            find?_cons_false _ _ _ (by simp [hp])]
          exact ih

theorem mapLookup_updateKey_eq (m : TitleMap) (k : String)
    (f : List String → List String) (v : List String)
    (h : mapLookup m k = some v) :
    mapLookup (updateKey m k f) k = some (f v) := by
  induction m with
  | nil => simp [mapLookup] at h
  | cons p rest ih =>
      by_cases hp : p.1 = k
      · rw [mapLookup, find?_cons_true _ _ _ (by simp [hp])] at h
        simp only [Option.map_some', Option.some.injEq] at h
        simp only [updateKey, List.map_cons, if_pos hp, mapLookup]
        rw [find?_cons_true _ _ _ (by simp [hp])]
        simp only [Option.map_some', Option.some.injEq]
        rw [h]
      · rw [mapLookup, find?_cons_false _ _ _ (by simp [hp])] at h
        simp only [updateKey, List.map_cons, if_neg hp, mapLookup]
        rw [find?_cons_false _ _ _ (by simp [hp])]
        exact ih h

theorem mapLookup_pad (m : TitleMap) (k : String) :
    mapLookup (m.map (fun p => (p.1, if p.2 = [] then [""] else p.2))) k =
      (mapLookup m k).map (fun v => if v = [] then [""] else v) := by
  induction m with
  | nil => simp [mapLookup]
  | cons p rest ih =>
      by_cases hp : p.1 = k
      · simp [mapLookup, List.find?_cons_of_pos, hp]
      · simp only [mapLookup, List.map_cons] at *
        rw [List.find?_cons_of_neg, List.find?_cons_of_neg]
        · exact ih
        · simpa using hp
        · simpa using hp

theorem listWindowsStep_lookup_ne (fs : List String) (m : TitleMap)
    (line : WmLine) (k : String) (hk : line.app ≠ k) :
    mapLookup (listWindowsStep fs m line) k = mapLookup m k := by
  simp only [listWindowsStep]
  by_cases hm : (mapLookup m line.app).isSome
  · simp only [hm, if_pos]
    split
    · split
      · exact mapLookup_updateKey_ne m line.app k _ hk
      · exact mapLookup_updateKey_ne m line.app k _ hk
    · exact mapLookup_updateKey_ne m line.app k _ hk
  · simp only [hm, if_neg, Bool.false_eq_true, not_false_iff]
    have hbase := mapLookup_append_ne m line.app k [] hk
    split
    · split
      · rw [mapLookup_updateKey_ne _ line.app k _ hk]; exact hbase
      · rw [mapLookup_updateKey_ne _ line.app k _ hk]; exact hbase
    · rw [mapLookup_updateKey_ne _ line.app k _ hk]; exact hbase

theorem foldl_step_lookup_ne (fs : List String) (lines : List WmLine)
    (m : TitleMap) (k : String) (hk : ∀ l ∈ lines, l.app ≠ k) :
    mapLookup (lines.foldl (listWindowsStep fs) m) k = mapLookup m k := by
  induction lines generalizing m with
  | nil => rfl
  | cons l rest ih =>
      simp only [List.foldl_cons]
      rw [ih _ (fun x hx => hk x (List.mem_cons_of_mem l hx))]
      exact listWindowsStep_lookup_ne fs m l k (hk l (List.mem_cons_self l rest))


theorem listWindowsStep_vlc (fs : List String) (m : TitleMap) (line : WmLine)
    (v : List String) (hvlc : startswithVlc line.app = true)
    (hm : mapLookup m line.app = some v) :
    mapLookup (listWindowsStep fs m line) line.app =
      some (if fs = [] then v ++ [""] else v ++ fs) := by
  simp only [listWindowsStep]
  rw [hm]
  simp only [Option.isSome_some, if_true, hvlc]
  by_cases hfs : fs = []
  · subst hfs
    simp only [ne_eq, not_true_eq_false, if_neg, ite_false, if_pos rfl]
    exact mapLookup_updateKey_eq m line.app _ v hm
  · simp only [ne_eq, hfs, not_false_iff, if_pos, ite_true, if_neg hfs]
    exact mapLookup_updateKey_eq m line.app _ v hm


theorem listWindowsStep_isSome (fs : List String) (m : TitleMap)
    (line : WmLine) (k : String) (h : (mapLookup m k).isSome = true) :
    (mapLookup (listWindowsStep fs m line) k).isSome = true := by
  by_cases hk : line.app = k
  · subst hk
    obtain ⟨v, hv⟩ := Option.isSome_iff_exists.mp h
    simp only [listWindowsStep, hv, Option.isSome_some, if_true]
    split
    · split
      · rw [mapLookup_updateKey_eq m line.app _ v hv]; rfl
      · rw [mapLookup_updateKey_eq m line.app _ v hv]; rfl
    · rw [mapLookup_updateKey_eq m line.app _ v hv]; rfl
  · rw [listWindowsStep_lookup_ne fs m line k hk]; exact h

theorem foldl_step_isSome (fs : List String) (lines : List WmLine)
    (m : TitleMap) (k : String) (h : (mapLookup m k).isSome = true) :
    (mapLookup (lines.foldl (listWindowsStep fs) m) k).isSome = true := by
  induction lines generalizing m with
  | nil => exact h
  | cons l rest ih =>
      exact ih _ (listWindowsStep_isSome fs m l k h)

theorem mapLookup_init_APPS (app : String) (h : app ∈ APPS) :
    mapLookup (APPS.map (fun a => (a, []))) app = some [] := by
  fin_cases h <;> rfl

theorem find_path_unique (catalog : List Video) (v : Video) (A : String)
    (huniq : catalog.Pairwise (fun a b => a.path ≠ b.path))
    (hv : v ∈ catalog) (hp : v.path = A) :
    catalog.find? (fun w => w.path = A) = some v := by
  induction catalog with
  | nil => cases hv
  | cons hd tl ih =>
      rcases List.mem_cons.mp hv with rfl | hv'
      · exact find?_cons_true _ _ _ (by simp [hp])
      · have hhd : ¬ hd.path = A := by
          intro e
          exact (List.pairwise_cons.mp huniq).1 v hv' (e.trans hp.symm)
        rw [find?_cons_false _ _ _ (by simp [hhd])]
        exact ih (List.pairwise_cons.mp huniq).2 hv'

theorem find_path_none (catalog : List Video) (A : String)
    (h : ∀ v ∈ catalog, v.path ≠ A) :
    catalog.find? (fun w => w.path = A) = none := by
  induction catalog with
  | nil => rfl
  | cons hd tl ih =>
      rw [find?_cons_false _ _ _ (by simp [h hd (List.mem_cons_self hd tl)])]
      exact ih (fun v hv => h v (List.mem_cons_of_mem hd hv))

theorem scan_video_files_dup (files : List (String × Nat))
    (catalog : List Video) (nextId : Nat) (p : String) (s : Nat)
    (hmem : (p, s) ∈ files) (hs : s > MINIMUM_VIDEO_SIZE)
    (hdup : catalog.any (fun v => v.path = p) = true) :
    scan_video_files catalog nextId files =
      .error "UNIQUE constraint failed: video.path" := by
  induction files generalizing catalog nextId with
  | nil => cases hmem
  | cons f rest ih =>
      obtain ⟨q, r⟩ := f
      rcases List.mem_cons.mp hmem with he | hmem'
      · obtain ⟨rfl, rfl⟩ := Prod.mk.injEq p s q r ▸ he
        simp [scan_video_files, videoInsert, hs, hdup]
      · by_cases hr : r > MINIMUM_VIDEO_SIZE
        · simp only [scan_video_files, if_pos hr, videoInsert]
          by_cases hq : catalog.any (fun v => v.path = q) = true
          · simp [hq]
          · simp only [hq, if_false, Bool.false_eq_true, not_false_iff,
              if_neg]
            exact ih _ _ hmem' (by simp only [List.any_append, hdup,
              Bool.true_or])
        · simp only [scan_video_files, if_neg hr]
          exact ih _ _ hmem' hdup


/-- C2: Debounce — when a slot's stored history title equals the newly
reported title, the poll leaves the whole monitor state unchanged (no log
record is emitted, the history entry keeps its timestamp and title), and the
same holds for any number of consecutive repetitions. -/
theorem debounce_no_emission (catalog : List Video) (mst now : Nat) (b : Bool)
    (app : String) (i ts : Nat) (T : String) (st : MonSt)
    (h : histLookup st.1 (app, i) = some (ts, T)) :
    processSlot catalog mst now b app i T st = st ∧
    ∀ n : Nat, (fun s => processSlot catalog mst now b app i T s)^[n] st = st := by
  have h1 := processSlot_debounce catalog mst now b app i ts T st h
  exact ⟨h1, Function.iterate_fixed h1⟩

/-- Witness for C2 at a concrete input. -/
theorem debounce_no_emission_witness :
    histLookup [(("a", 0), (3, "X"))] ("a", 0) = some (3, "X") ∧
    processSlot [] 0 5 true "a" 0 "X" ([(("a", 0), (3, "X"))], [], []) =
      ([(("a", 0), (3, "X"))], [], []) :=
  ⟨rfl, (debounce_no_emission [] 0 5 true "a" 0 3 "X"
    ([(("a", 0), (3, "X"))], [], []) rfl).1⟩

/-- C3: First-observation suppression — a slot with no prior history entry
never emits a log record on its first reported title, whatever that title
is; it only seeds the history with `(now, title)` (and prints the
open-window line when the title is non-empty). -/
theorem first_observation_suppression (catalog : List Video) (mst now : Nat)
    (b : Bool) (app : String) (i : Nat) (t : String) (st : MonSt)
    (h : histLookup st.1 (app, i) = none) :
    processSlot catalog mst now b app i t st =
      (histInsert st.1 (app, i) (now, t),
       (if t = "" then st.2.1 else st.2.1 ++ [Report.openWindow now app t]),
       st.2.2) :=
  processSlot_first catalog mst now b app i t st h

/-- Witness for C3 at a concrete input. -/
theorem first_observation_suppression_witness :
    histLookup ([] : Hist) ("a", 0) = none ∧
    processSlot [] 0 5 true "a" 0 "X" ([], [], []) =
      ([(("a", 0), (5, "X"))], [Report.openWindow 5 "a" "X"], []) :=
  ⟨rfl, first_observation_suppression [] 0 5 true "a" 0 "X" ([], [], []) rfl⟩

/-- C4: Empty-title suppression with history update — a transition away from
a stored empty title emits no log record, while the history entry is still
overwritten with `(end_time, new_title)`. -/
theorem empty_title_suppression (catalog : List Video) (mst now : Nat)
    (b : Bool) (app : String) (i ts : Nat) (t : String) (st : MonSt)
    (h : histLookup st.1 (app, i) = some (ts, "")) (ht : t ≠ "") :
    processSlot catalog mst now b app i t st =
      (histInsert st.1 (app, i) (now, t),
       st.2.1 ++ [Report.openWindow now app t], st.2.2) :=
  processSlot_emptyOld catalog mst now b app i ts t st h ht

/-- Witness for C4 at a concrete input. -/
theorem empty_title_suppression_witness :
    histLookup [(("a", 0), (3, ""))] ("a", 0) = some (3, "") ∧
    ("X" : String) ≠ "" ∧
    processSlot [] 0 5 true "a" 0 "X" ([(("a", 0), (3, ""))], [], []) =
      ([(("a", 0), (5, "X"))], [Report.openWindow 5 "a" "X"], []) :=
  ⟨rfl, by decide,
    empty_title_suppression [] 0 5 true "a" 0 3 "X"
      ([(("a", 0), (3, ""))], [], []) rfl (by decide)⟩


/-- C1 (counterexample): with monitor start time 0, a slot whose first-ever
observation is title `"A"` at poll time 1, followed by `"B"` at poll time 2,
yields an emitted record with `start = 1` (the stored timestamp of the first
observation), not `start = 0` (the monitor's global start time) as the claim
states for a first-ever observation: no record with `start = 0` appears
anywhere in the run's output. -/
theorem interval_start_claim_counterexample :
    (window_monitor [] 0 true [(1, [("app", ["A"])]), (2, [("app", ["B"])])]
      ([], [], [])).2.2 =
      [⟨1, 2, "app", "A", none⟩] ∧
    Report.logRecord ⟨0, 2, "app", "A", none⟩ ∉
      (window_monitor [] 0 true [(1, [("app", ["A"])]), (2, [("app", ["B"])])]
        ([], [], [])).2.1 := by
  constructor
  · rfl
  · decide

/-- C1 (amended): for a slot whose stored history holds title `A` recorded
at timestamp `t1`, a poll reporting a different title `B` at time `now`
emits exactly one record for `A` with `start = t1` (the stored timestamp,
also when `A` was the slot's first-ever observation) and `end = now`; the
monitor's global start time `mst` does not occur in the emitted record. -/
theorem interval_correctness_amended (catalog : List Video) (mst now : Nat)
    (b : Bool) (app : String) (i t1 : Nat) (A B : String) (st : MonSt)
    (h : histLookup st.1 (app, i) = some (t1, A)) (hA : A ≠ "")
    (hAB : A ≠ B) :
    (processSlot catalog mst now b app i B st).2.1 =
      (if B = "" then st.2.1
       else st.2.1 ++ [Report.openWindow now app B]) ++
        [Report.logRecord ⟨t1, now, app, A,
          (catalog.find? (fun v => v.path = A)).map Video.video_id⟩] := by
  rw [processSlot_emit catalog mst now b app i t1 A B st h hA hAB]

/-- Witness for the amended C1 at a concrete input. -/
theorem interval_correctness_amended_witness :
    histLookup [(("app", 0), (1, "A"))] ("app", 0) = some (1, "A") ∧
    ("A" : String) ≠ "" ∧ ("A" : String) ≠ "B" ∧
    (processSlot [] 0 2 true "app" 0 "B"
      ([(("app", 0), (1, "A"))], [], [])).2.1 =
      [Report.openWindow 2 "app" "B",
       Report.logRecord ⟨1, 2, "app", "A", none⟩] :=
  ⟨rfl, by decide, by decide,
    interval_correctness_amended [] 0 2 true "app" 0 1 "A" "B"
      ([(("app", 0), (1, "A"))], [], []) rfl (by decide) (by decide)⟩

/-- C5: Correlation is best-effort and exact — when a non-empty segment for
`old_title = A` closes, the emitted record links to the id of the unique
catalog record whose path equals `A` exactly, and links to `none` when no
catalog record matches; a correlation miss never prevents or alters the
emission. -/
theorem correlation_best_effort (catalog : List Video) (mst now : Nat)
    (b : Bool) (app : String) (i t1 : Nat) (A B : String) (st : MonSt)
    (huniq : catalog.Pairwise (fun a c => a.path ≠ c.path))
    (h : histLookup st.1 (app, i) = some (t1, A)) (hA : A ≠ "")
    (hAB : A ≠ B) :
    (∀ v ∈ catalog, v.path = A →
      (processSlot catalog mst now b app i B st).2.1 =
        (if B = "" then st.2.1
         else st.2.1 ++ [Report.openWindow now app B]) ++
          [Report.logRecord ⟨t1, now, app, A, some v.video_id⟩]) ∧
    ((∀ v ∈ catalog, v.path ≠ A) →
      (processSlot catalog mst now b app i B st).2.1 =
        (if B = "" then st.2.1
         else st.2.1 ++ [Report.openWindow now app B]) ++
          [Report.logRecord ⟨t1, now, app, A, none⟩]) := by
  constructor
  · intro v hv hp
    rw [processSlot_emit catalog mst now b app i t1 A B st h hA hAB,
      find_path_unique catalog v A huniq hv hp]
    rfl
  · intro hmiss
    rw [processSlot_emit catalog mst now b app i t1 A B st h hA hAB,
      find_path_none catalog A hmiss]
    rfl

/-- Witness for C5 at a concrete input (hit case, with a one-record
catalog). -/
theorem correlation_best_effort_witness :
    ([⟨7, "movies/x.mkv", 20000001⟩] : List Video).Pairwise
      (fun a c => a.path ≠ c.path) ∧
    histLookup [(("app", 0), (1, "movies/x.mkv"))] ("app", 0) =
      some (1, "movies/x.mkv") ∧
    ("movies/x.mkv" : String) ≠ "" ∧
    ("movies/x.mkv" : String) ≠ "movies/y.mkv" ∧
    (processSlot [⟨7, "movies/x.mkv", 20000001⟩] 0 2 true "app" 0
      "movies/y.mkv" ([(("app", 0), (1, "movies/x.mkv"))], [], [])).2.1 =
      [Report.openWindow 2 "app" "movies/y.mkv",
       Report.logRecord ⟨1, 2, "app", "movies/x.mkv", some 7⟩] :=
  ⟨by simp, rfl, by decide, by decide,
    (correlation_best_effort [⟨7, "movies/x.mkv", 20000001⟩] 0 2 true "app" 0
      1 "movies/x.mkv" "movies/y.mkv"
      ([(("app", 0), (1, "movies/x.mkv"))], [], [])
      (by simp) rfl (by decide) (by decide)).1
      ⟨7, "movies/x.mkv", 20000001⟩ (List.mem_singleton_self _) rfl⟩

/-- C6: Dry-run isolation — over any finite sequence of polls, running the
monitor with `save_logs = false` yields the same final history and the same
reported operator output as running it with `save_logs = true`, and performs
zero writes to the activity log store. -/
theorem dry_run_isolation (catalog : List Video) (mst : Nat)
    (polls : List (Nat × TitleMap)) :
    (window_monitor catalog mst false polls ([], [], [])).1 =
      (window_monitor catalog mst true polls ([], [], [])).1 ∧
    (window_monitor catalog mst false polls ([], [], [])).2.1 =
      (window_monitor catalog mst true polls ([], [], [])).2.1 ∧
    (window_monitor catalog mst false polls ([], [], [])).2.2 = [] :=
  window_monitor_dry catalog mst polls ([], [], []) ([], [], []) rfl rfl


/-- C7: Slot padding invariant — every tracked application always maps to a
non-empty title list in a snapshot; a tracked application with zero matching
window lines contributes exactly `[""]`; and the scenario empty-title then
`"Doc"` on the same application is observed as one transition on slot 0
(history updated, open-window line printed, no log record emitted, nothing
persisted). -/
theorem slot_padding_invariant (lines : List WmLine) (fs : List String)
    (app : String) (happ : app ∈ APPS) :
    (∃ ts, mapLookup (list_windows lines fs) app = some ts ∧ ts ≠ []) ∧
    ((∀ l ∈ lines, l.app ≠ app) →
      mapLookup (list_windows lines fs) app = some [""]) ∧
    (window_monitor [] 0 true
        [(1, list_windows [] []), (2, list_windows [⟨"feh.feh", "Doc"⟩] [])]
        ([], [], [])).2.1 = [Report.openWindow 2 "feh.feh" "Doc"] ∧
    (window_monitor [] 0 true
        [(1, list_windows [] []), (2, list_windows [⟨"feh.feh", "Doc"⟩] [])]
        ([], [], [])).2.2 = [] ∧
    histLookup (window_monitor [] 0 true
        [(1, list_windows [] []), (2, list_windows [⟨"feh.feh", "Doc"⟩] [])]
        ([], [], [])).1 ("feh.feh", 0) = some (2, "Doc") := by
  have h0 := mapLookup_init_APPS app happ
  have h1 : (mapLookup
      (lines.foldl (listWindowsStep fs) (APPS.map (fun a => (a, []))))
      app).isSome = true :=
    foldl_step_isSome fs lines _ app (by rw [h0]; rfl)
  obtain ⟨v, hv⟩ := Option.isSome_iff_exists.mp h1
  refine ⟨⟨if v = [] then [""] else v, ?_, ?_⟩, ?_, ?_, ?_, ?_⟩
  · simp only [list_windows]
    rw [mapLookup_pad, hv]
    rfl
  · by_cases hv0 : v = [] <;> simp [hv0]
  · intro hno
    simp only [list_windows]
    rw [mapLookup_pad, foldl_step_lookup_ne fs lines _ app hno, h0]
    rfl
  · decide
  · decide
  · decide

/-- Witness for C7 at a concrete input. -/
theorem slot_padding_invariant_witness :
    ("feh.feh" : String) ∈ APPS ∧
    mapLookup (list_windows [] []) "feh.feh" = some [""] :=
  ⟨by decide,
    (slot_padding_invariant [] [] "feh.feh" (by decide)).2.1
      (fun l hl => absurd hl (List.not_mem_nil l))⟩

/-- C8 (counterexample): with every store write failing, a three-poll run
whose second poll closes a segment aborts with the store error instead of
continuing to the third poll; the same run with a healthy store completes
and also logs the segment the aborted run never reached. -/
theorem persistence_failure_aborts_counterexample :
    window_monitorE [] 0 true (fun _ => false)
      [(1, [("a", ["X"])]), (2, [("a", ["Y"])]), (3, [("a", ["Z"])])]
      ([], [], [], 0) = .error "IntegrityError" ∧
    window_monitorE [] 0 true (fun _ => true)
      [(1, [("a", ["X"])]), (2, [("a", ["Y"])]), (3, [("a", ["Z"])])]
      ([], [], [], 0) =
      .ok ([(("a", 0), (3, "Z"))],
        [Report.openWindow 1 "a" "X", Report.openWindow 2 "a" "Y",
         Report.logRecord ⟨1, 2, "a", "X", none⟩,
         Report.openWindow 3 "a" "Z",
         Report.logRecord ⟨2, 3, "a", "Y", none⟩],
        [⟨1, 2, "a", "X", none⟩, ⟨2, 3, "a", "Y", none⟩], 2) :=
  ⟨rfl, rfl⟩

/-- C8 (amended): a failing store write is surfaced — the slot step returns
the store error rather than swallowing it — and an error in one poll aborts
the whole monitor run, skipping every remaining poll (only
`KeyboardInterrupt` is caught by the loop). -/
theorem persistence_failure_surfaced_amended (catalog : List Video)
    (mst now : Nat) (writeOk : Nat → Bool) (app : String) (i t1 : Nat)
    (A B : String) (st : MonStE)
    (h : histLookup st.1 (app, i) = some (t1, A)) (hA : A ≠ "") (hAB : A ≠ B)
    (hfail : writeOk st.2.2.2 = false) :
    processSlotE catalog mst now true writeOk app i B st =
      .error "IntegrityError" ∧
    ∀ (e : String) (now' : Nat) (snap : TitleMap)
      (rest : List (Nat × TitleMap)) (st' : MonStE),
      processPollE catalog mst now' true writeOk snap st' = .error e →
      window_monitorE catalog mst true writeOk ((now', snap) :: rest) st' =
        .error e := by
  constructor
  · obtain ⟨last, reports, saved, writes⟩ := st
    simp only at h hfail
    simp [processSlotE, h, hA, hAB, hfail]
  · intro e now' snap rest st' hp
    simp [window_monitorE, hp]

/-- Witness for the amended C8 at a concrete input. -/
theorem persistence_failure_surfaced_amended_witness :
    histLookup [(("a", 0), (1, "X"))] ("a", 0) = some (1, "X") ∧
    ("X" : String) ≠ "" ∧ ("X" : String) ≠ "Y" ∧
    ((fun _ : Nat => false) 0) = false ∧
    processSlotE [] 0 2 true (fun _ => false) "a" 0 "Y"
      ([(("a", 0), (1, "X"))], [], [], 0) = .error "IntegrityError" :=
  ⟨rfl, by decide, by decide, rfl,
    (persistence_failure_surfaced_amended [] 0 2 (fun _ => false) "a" 0 1
      "X" "Y" ([(("a", 0), (1, "X"))], [], [], 0) rfl (by decide) (by decide)
      rfl).1⟩

/-- C9: Media-player slot substitution — in a snapshot containing exactly
one window line for the VLC application, the open-file paths reported by the
player replace the window's title, one slot per file in file order; when no
files are open, the player's window contributes `[""]` instead of its real
window title. -/
theorem vlc_slot_substitution (pre post : List WmLine) (title : String)
    (fs : List String)
    (hpre : ∀ l ∈ pre, l.app ≠ "vlc.Vlc")
    (hpost : ∀ l ∈ post, l.app ≠ "vlc.Vlc") :
    mapLookup (list_windows (pre ++ ⟨"vlc.Vlc", title⟩ :: post) fs)
      "vlc.Vlc" = some (if fs = [] then [""] else fs) := by
  simp only [list_windows, List.foldl_append, List.foldl_cons]
  rw [mapLookup_pad, foldl_step_lookup_ne fs post _ _ hpost]
  have h0 : mapLookup
      (pre.foldl (listWindowsStep fs) (APPS.map (fun a => (a, []))))
      "vlc.Vlc" = some [] := by
    rw [foldl_step_lookup_ne fs pre _ _ hpre]
    exact mapLookup_init_APPS _ (by decide)
  have hvlc : startswithVlc "vlc.Vlc" = true := by decide
  rw [listWindowsStep_vlc fs _ ⟨"vlc.Vlc", title⟩ [] hvlc h0]
  by_cases hfs : fs = []
  · simp [hfs]
  · simp [hfs]

/-- Witness for C9 at a concrete input. -/
theorem vlc_slot_substitution_witness :
    mapLookup (list_windows [⟨"vlc.Vlc", "ignored"⟩] ["movies/x.mkv"])
      "vlc.Vlc" = some ["movies/x.mkv"] :=
  vlc_slot_substitution [] [] "ignored" ["movies/x.mkv"]
    (fun l hl => absurd hl (List.not_mem_nil l))
    (fun l hl => absurd hl (List.not_mem_nil l))

/-- C10: Cataloging is not idempotent on re-scan — scanning a file list that
contains a qualifying file (size above the minimum) whose relative path is
already cataloged makes `scan_video_files` raise the store's uniqueness
violation instead of skipping or updating the existing record. -/
theorem rescan_unique_violation (files : List (String × Nat))
    (catalog : List Video) (nextId : Nat) (p : String) (s : Nat)
    (hmem : (p, s) ∈ files) (hs : s > MINIMUM_VIDEO_SIZE)
    (hdup : catalog.any (fun v => v.path = p) = true) :
    scan_video_files catalog nextId files =
      .error "UNIQUE constraint failed: video.path" :=
  scan_video_files_dup files catalog nextId p s hmem hs hdup

/-- Witness for C10 at a concrete input. -/
theorem rescan_unique_violation_witness :
    (("a.mkv", 10000001) : String × Nat) ∈ [("a.mkv", 10000001)] ∧
    10000001 > MINIMUM_VIDEO_SIZE ∧
    ([⟨1, "a.mkv", 20000000⟩] : List Video).any
      (fun v => v.path = "a.mkv") = true ∧
    scan_video_files [⟨1, "a.mkv", 20000000⟩] 2 [("a.mkv", 10000001)] =
      .error "UNIQUE constraint failed: video.path" :=
  ⟨List.mem_singleton_self _, by decide, rfl,
    rescan_unique_violation [("a.mkv", 10000001)] [⟨1, "a.mkv", 20000000⟩] 2
      "a.mkv" 10000001 (List.mem_singleton_self _) (by decide) rfl⟩

end Clitoolkit
